import Mathlib

/-!
Verification of `amset/util.py`: the settings-validation pipeline
(`validate_settings`, `cast_tensor`, `cast_elastic_tensor`, `parse_doping`,
`parse_temperatures`, `parse_deformation_potential`), the mesh-data codec
(`write_mesh_data`, `load_mesh_data`) and the array-casting helper
(`cast_dict_ndarray`), shallowly embedded in Lean.

Python floats are modelled exactly: string literals parse to `ℚ`, and the
numeric results of `np.linspace` / `np.geomspace` live in `ℝ` (geometric
spacing needs real powers).  Python dicts are modelled as insertion-ordered
association lists, matching Python 3.7+ iteration-order semantics.
-/

namespace Amset

/-! ## Python string primitives

`str.strip`, `str.replace`, `str.split` and the substring test `in` are
re-implemented over `List Char` so that every operation kernel-reduces on
concrete inputs. -/

/-- Python `pat in s` (substring containment). -/
def strContains (s sub : String) : Bool :=
  (List.range (s.data.length + 1)).any (fun i => sub.data.isPrefixOf (s.data.drop i))

/-- Python `s.split(sep)` for a one-character separator: `""` splits to
`[""]`, consecutive separators produce empty fields. -/
def splitOnChar : List Char → Char → List (List Char)
  | [], _ => [[]]
  | c :: rest, sep =>
    match splitOnChar rest sep with
    | [] => [[c]]
    | h :: t => if c = sep then [] :: h :: t else (c :: h) :: t

/-- Python `s.split(sep)` on strings. -/
def pySplit (s : String) (sep : Char) : List String :=
  (splitOnChar s.data sep).map (fun cs => ⟨cs⟩)

/-- Helper for `removeAll`: while `skip > 0` the current character belongs
to an occurrence of the pattern already matched and is dropped. -/
def removeAllAux (pat : List Char) : List Char → ℕ → List Char
  | [], _ => []
  | _ :: rest, skip + 1 => removeAllAux pat rest skip
  | c :: rest, 0 =>
    if pat ≠ [] ∧ pat.isPrefixOf (c :: rest) then
      removeAllAux pat rest (pat.length - 1)
    else
      c :: removeAllAux pat rest 0

/-- Python `s.replace(pat, "")` (every occurrence of `pat` deleted, scanning
left to right, non-overlapping).  An empty pattern leaves the string
unchanged; the module only ever deletes the non-empty patterns
`"_up"`/`"_down"`. -/
def removeAll (l pat : List Char) : List Char := removeAllAux pat l 0

/-- Python `s.replace(pat, "")` on strings. -/
def pyRemove (s pat : String) : String := ⟨removeAll s.data pat.data⟩

/-- Python `s.strip().replace(" ", "")`, the normalisation every parser in
the module applies first (util.py lines 202, 221, 245): surrounding
whitespace is stripped, then every remaining space character deleted. -/
def pyStrip (s : String) : String :=
  ⟨((s.data.dropWhile Char.isWhitespace).reverse.dropWhile
      Char.isWhitespace).reverse.filter (fun c => c ≠ ' ')⟩

/-! ## Python `float` and `int`

`float(tok)` is modelled for decimal literals with optional sign, fraction
and exponent (the forms the settings grammar feeds it); anything else is a
`ValueError`, modelled as `Option.none`.  `int(x)` on a float truncates
toward zero. -/

/-- The value of a digit string. -/
def natOfDigits (cs : List Char) : ℕ :=
  cs.foldl (fun n c => 10 * n + (c.toNat - 48)) 0

/-- Leading `+`/`-` sign of a numeric token: (negative?, rest). -/
def pickSign : List Char → Bool × List Char
  | '+' :: t => (false, t)
  | '-' :: t => (true, t)
  | t => (false, t)

/-- Python `float(tok)` on a decimal literal `[±] digits [. digits] [e[±]digits]`;
`Option.none` models the `ValueError` raised for anything else. -/
def parseFloat (s : String) : Option ℚ :=
  let (neg, cs) := pickSign s.data
  let ip := cs.takeWhile Char.isDigit
  let rest := cs.dropWhile Char.isDigit
  let fp := match rest with
    | '.' :: t => t.takeWhile Char.isDigit
    | _ => []
  let rest2 := match rest with
    | '.' :: t => t.dropWhile Char.isDigit
    | t => t
  if ip.isEmpty ∧ fp.isEmpty then Option.none else
  -- the literal's exact value ±(ip.fp)·10^(±ed), built with `mkRat` so that
  -- it evaluates by kernel reduction
  let mk : Bool → ℕ → ℚ := fun eneg ed =>
    let m : ℕ := natOfDigits ip * 10 ^ fp.length + natOfDigits fp
    let num : ℤ := (if neg then -(m : ℤ) else (m : ℤ)) * 10 ^ (if eneg then 0 else ed)
    mkRat num (10 ^ (fp.length + if eneg then ed else 0))
  match rest2 with
  | [] => some (mk false 0)
  | 'e' :: t =>
    let (eneg, t2) := pickSign t
    let ed := t2.takeWhile Char.isDigit
    if ed.isEmpty ∨ ¬ (t2.dropWhile Char.isDigit).isEmpty then Option.none
    else some (mk eneg (natOfDigits ed))
  | 'E' :: t =>
    let (eneg, t2) := pickSign t
    let ed := t2.takeWhile Char.isDigit
    if ed.isEmpty ∨ ¬ (t2.dropWhile Char.isDigit).isEmpty then Option.none
    else some (mk eneg (natOfDigits ed))
  | _ => Option.none

/-- Python `int(x)` on a float: truncation toward zero. -/
def pyInt (q : ℚ) : ℤ := if 0 ≤ q then ⌊q⌋ else -⌊-q⌋

/-! ## `np.linspace` and `np.geomspace`

Modelled over `ℝ`.  Both return `num` samples; with the default
`endpoint=True` the first sample is `start` and (for `num ≥ 2`) the last is
`stop`.  For `num = 1` numpy returns `[start]`; division by zero in the
Lean formulas is `0`, which reproduces that. -/

/-- `np.linspace(lo, hi, n)`: `n` evenly spaced samples. -/
noncomputable def linspace (lo hi : ℝ) (n : ℕ) : List ℝ :=
  (List.range n).map (fun (i : ℕ) => lo + (i : ℝ) * (hi - lo) / ((n : ℝ) - 1))

/-- `np.geomspace(lo, hi, n)`: `n` samples spaced evenly on a log scale.
Meaningful when `lo` and `hi` are nonzero and of the same sign (numpy
raises otherwise; the callers below check that before calling). -/
noncomputable def geomspace (lo hi : ℝ) (n : ℕ) : List ℝ :=
  (List.range n).map (fun (i : ℕ) => lo * (hi / lo) ^ ((i : ℝ) / ((n : ℝ) - 1)))

/-! ## The compact string grammars (util.py lines 201-261) -/

/-- Message of the `ValueError` re-raised by `parse_doping` (line 217). -/
def dopingMsg (t : String) : String := "ERROR: Unrecognised doping format: " ++ t

/-- Message of the `ValueError` re-raised by `parse_temperatures` (line 236). -/
def temperatureMsg (t : String) : String := "ERROR: Unrecognised temperature format: " ++ t

/-- Message of the `ValueError` re-raised by `parse_deformation_potential`
(lines 258-261). -/
def deformationMsg (t : String) : String :=
  "ERROR: Unrecognised deformation potential format: " ++ t

/-- Body of `parse_doping`'s `try:` block on the already-stripped string
`t`; `Option.none` is any `ValueError` raised inside the block (a
non-numeric token, a part count other than 3, or the `ValueError` numpy's
`geomspace` raises for zero/mixed-sign endpoints or a negative count). -/
noncomputable def doping_core (t : String) : Option (List ℝ) :=
  if strContains t ":" then
    match (pySplit t ':').mapM parseFloat with
    | Option.none => Option.none
    | some parts =>
      if parts.length = 3 then
        let lo := parts.getD 0 0
        let hi := parts.getD 1 0
        let n := pyInt (parts.getD 2 0)
        -- numpy raises for a zero or mixed-sign endpoint pair, i.e. exactly
        -- when lo*hi ≤ 0, tested on the numerators so that it kernel-reduces
        if lo.num * hi.num ≤ 0 then Option.none
        else if n < 0 then Option.none
        else some (geomspace (lo : ℝ) (hi : ℝ) n.toNat)
      else Option.none
  else
    ((pySplit t ',').mapM parseFloat).map (List.map (fun q => ((q : ℚ) : ℝ)))

/-- `parse_doping` (util.py lines 201-217). -/
noncomputable def parse_doping (s : String) : Except String (List ℝ) :=
  let t := pyStrip s
  match doping_core t with
  | some v => .ok v
  | Option.none => .error (dopingMsg t)

/-- Body of `parse_temperatures`' `try:` block on the stripped string. -/
noncomputable def temperatures_core (t : String) : Option (List ℝ) :=
  if strContains t ":" then
    match (pySplit t ':').mapM parseFloat with
    | Option.none => Option.none
    | some parts =>
      if parts.length = 3 then
        let lo := parts.getD 0 0
        let hi := parts.getD 1 0
        let n := pyInt (parts.getD 2 0)
        if n < 0 then Option.none
        else some (linspace (lo : ℝ) (hi : ℝ) n.toNat)
      else Option.none
  else
    ((pySplit t ',').mapM parseFloat).map (List.map (fun q => ((q : ℚ) : ℝ)))

/-- `parse_temperatures` (util.py lines 220-238). -/
noncomputable def parse_temperatures (s : String) : Except String (List ℝ) :=
  let t := pyStrip s
  match temperatures_core t with
  | some v => .ok v
  | Option.none => .error (temperatureMsg t)

/-! ## Settings values

`SVal` models the Python values `validate_settings` dispatches on:
numbers (`int`/`float`), strings, lists, tuples, `None` and numpy arrays.
An array is its shape together with its row-major data. -/

/-- A numpy array: shape and row-major data.  Numeric dtype only — the
only arrays the validator builds or consumes are numeric. -/
structure NDArr where
  shape : List ℕ
  data : List ℝ

/-- A Python value appearing in a settings mapping. -/
inductive SVal where
  | num (x : ℝ)
  | str (s : String)
  | list (xs : List SVal)
  | tup (xs : List SVal)
  | noneV
  | arr (a : NDArr)

/-- `parse_deformation_potential` (util.py lines 241-261): anything
containing `"h5"` is returned unchanged as a file reference; otherwise a
comma list of 1 float (a number) or 2 floats (a tuple). -/
noncomputable def parse_deformation_potential (s : String) : Except String SVal :=
  if strContains s "h5" then .ok (.str s)
  else
    let t := pyStrip s
    match (pySplit t ',').mapM parseFloat with
    | some [x] => .ok (.num ((x : ℚ) : ℝ))
    | some [x, y] => .ok (.tup [.num ((x : ℚ) : ℝ), .num ((y : ℚ) : ℝ)])
    | _ => .error (deformationMsg t)

/-! ## `np.asarray` and the tensor casters (util.py lines 65-99) -/

/-- All shapes in a list of converted arrays agree: `np.asarray` of a
ragged nested list fails (for the numeric dtypes used here). -/
def sameShapes : List NDArr → Option (List ℕ)
  | [] => some []
  | [a] => some a.shape
  | a :: rest =>
    match sameShapes rest with
    | some s => if a.shape = s then some s else Option.none
    | Option.none => Option.none

mutual
/-- `np.asarray(v)` for a numeric value: a number becomes a 0-d array, a
(nested) list or tuple a rank-n array when rectangular, an array passes
through.  `Option.none` models the `TypeError`/`ValueError` numpy raises
for `None`, strings and ragged nesting under a numeric dtype. -/
def asarray : SVal → Option NDArr
  | .num x => some ⟨[], [x]⟩
  | .arr a => some a
  | .list xs =>
    match asarrayElems xs with
    | some elems =>
      match sameShapes elems with
      | some s => some ⟨xs.length :: s, (elems.map NDArr.data).flatten⟩
      | Option.none => Option.none
    | Option.none => Option.none
  | .tup xs =>
    match asarrayElems xs with
    | some elems =>
      match sameShapes elems with
      | some s => some ⟨xs.length :: s, (elems.map NDArr.data).flatten⟩
      | Option.none => Option.none
    | Option.none => Option.none
  | .str _ => Option.none
  | .noneV => Option.none

/-- Each element of a list converted by `asarray`. -/
def asarrayElems : List SVal → Option (List NDArr)
  | [] => some []
  | x :: rest =>
    match asarray x, asarrayElems rest with
    | some a, some more => some (a :: more)
    | _, _ => Option.none
end

/-- `n × n` diagonal matrix with diagonal `d` (`np.diag` of a 1-D array,
and `np.eye(3) * x` when `d = [x, x, x]`). -/
noncomputable def diagMat (d : List ℝ) : NDArr :=
  ⟨[d.length, d.length],
    (List.range d.length).flatMap (fun i =>
      (List.range d.length).map (fun j => if i = j then d.getD i 0 else 0))⟩

/-- `cast_tensor` (util.py lines 65-78): a number gives `x * np.eye(3)`; a
1-D array gives `np.diag` of it; any other shape than `(3, 3)` raises
`ValueError("Unsupported tensor shape.")`; a `(3, 3)` array passes
through. -/
noncomputable def cast_tensor (tensor : SVal) : Except String NDArr :=
  match tensor with
  | .num x => .ok (diagMat [x, x, x])
  | _ =>
    match asarray tensor with
    | Option.none => .error "could not convert value to a numeric array"
    | some a =>
      if a.shape.length = 1 then .ok (diagMat a.data)
      else if a.shape ≠ [3, 3] then .error "Unsupported tensor shape."
      else .ok a

/-- Voigt index of the symmetric pair `(i, j)`, `i j < 3`:
`(0,0)↦0, (1,1)↦1, (2,2)↦2, (1,2)↦3, (0,2)↦4, (0,1)↦5`. -/
def voigtIdx (i j : ℕ) : ℕ := if i = j then i else 6 - i - j

/-- `pymatgen.core.tensors.Tensor.from_voigt` on a `(6, 6)` matrix: the
standard Voigt-to-full expansion `T[i,j,k,l] = V[voigt(i,j), voigt(k,l)]`
(unit Voigt scaling for an elastic stiffness tensor). -/
noncomputable def from_voigt (a : NDArr) : NDArr :=
  ⟨[3, 3, 3, 3],
    (List.range 81).map (fun t =>
      let i := t / 27
      let j := t / 9 % 3
      let k := t / 3 % 3
      let l := t % 3
      a.data.getD (voigtIdx i j * 6 + voigtIdx k l) 0)⟩

/-- `np.eye(6) * x` with the three shear diagonal entries halved
(util.py lines 87-88). -/
noncomputable def elasticFromScalar (x : ℝ) : NDArr :=
  ⟨[6, 6],
    (List.range 6).flatMap (fun i =>
      (List.range 6).map (fun j =>
        if i = j then (if 3 ≤ i then x / 2 else x) else 0))⟩

/-- `cast_elastic_tensor` (util.py lines 81-99): a number builds the
halved-shear `6×6` matrix; a `(6, 6)` array is expanded through the Voigt
mapping; anything that is not `(3, 3, 3, 3)` after that raises; a
`(3, 3, 3, 3)` array passes through. -/
noncomputable def cast_elastic_tensor (v : SVal) : Except String NDArr :=
  let v2 : SVal := match v with
    | .num x => .arr (elasticFromScalar x)
    | w => w
  match asarray v2 with
  | Option.none => .error "could not convert value to a numeric array"
  | some a =>
    let a2 := if a.shape = [6, 6] then from_voigt a else a
    if a2.shape ≠ [3, 3, 3, 3] then
      .error "Unsupported elastic tensor shape. Should be (6, 6) or (3, 3, 3, 3)."
    else .ok a2

/-! ## Python dicts as insertion-ordered association lists -/

/-- Keys of an association list, in insertion order. -/
def keysOf {κ ν : Type} (d : List (κ × ν)) : List κ := d.map Prod.fst

/-- Python `d[k]`: the value of the first (only) entry with key `k`,
`Option.none` for a `KeyError`. -/
def getKey {κ ν : Type} [DecidableEq κ] (d : List (κ × ν)) (k : κ) : Option ν :=
  (d.find? (fun kv => decide (kv.1 = k))).map Prod.snd

/-- Python `d[k] = v`: overwrite in place when the key exists, else append
(dict insertion-order semantics). -/
def setKey {κ ν : Type} [DecidableEq κ] (d : List (κ × ν)) (k : κ) (v : ν) : List (κ × ν) :=
  if k ∈ keysOf d then d.map (fun kv => if kv.1 = k then (k, v) else kv)
  else d ++ [(k, v)]

/-- Python `d.update(u)`: `d[k] = v` for every entry of `u` in order. -/
def dictUpdate {κ ν : Type} [DecidableEq κ] (d u : List (κ × ν)) : List (κ × ν) :=
  u.foldl (fun acc kv => setKey acc kv.1 kv.2) d

/-! ## `validate_settings` (util.py lines 20-62) -/

/-- A settings mapping. -/
abbrev Settings := List (String × SVal)

/-- Modelled from the spec: the default settings schema `defaults` from
`amset.constants`, a module of this repository that is not under `src/`.
Per the spec it is an external read-only mapping of every recognised
setting name to its default value; it contains at least the six
specially-normalised keys (`doping`, `temperatures`,
`deformation_potential`, `static_dielectric`, `high_frequency_dielectric`,
`elastic_constant` — the validator reads all six unconditionally) plus
pass-through keys, two of which stand in for the rest here. -/
noncomputable def defaults : Settings :=
  [("doping", .list [.num 0]),
   ("temperatures", .list [.num 300]),
   ("deformation_potential", .noneV),
   ("static_dielectric", .noneV),
   ("high_frequency_dielectric", .noneV),
   ("elastic_constant", .noneV),
   ("scattering_type", .str "auto"),
   ("nworkers", .num (-1))]

/-- One normalisation statement `settings[k] = f(settings[k])`: reading a
missing key is a `KeyError` (never hit: every key used is in `defaults`). -/
def stepOn (k : String) (f : SVal → Except String SVal) (st : Settings) :
    Except String Settings :=
  match getKey st k with
  | Option.none => .error ("KeyError: " ++ k)
  | some v => do
    let v2 ← f v
    return setKey st k v2

/-- Lines 27-30: a numeric `doping` becomes a singleton list, a string is
parsed with the doping grammar, anything else is left as-is. -/
noncomputable def dopingStep : SVal → Except String SVal
  | .num x => .ok (.list [.num x])
  | .str s => do
    let xs ← parse_doping s
    return .arr ⟨[xs.length], xs⟩
  | v => .ok v

/-- Lines 32-35: same pattern for `temperatures`. -/
noncomputable def temperaturesStep : SVal → Except String SVal
  | .num x => .ok (.list [.num x])
  | .str s => do
    let xs ← parse_temperatures s
    return .arr ⟨[xs.length], xs⟩
  | v => .ok v

/-- Lines 37-42: a string `deformation_potential` is parsed, a list is cast
to a tuple, anything else is left as-is. -/
noncomputable def deformationStep : SVal → Except String SVal
  | .str s => parse_deformation_potential s
  | .list xs => .ok (.tup xs)
  | v => .ok v

/-- Lines 44-50: a dielectric setting that is not `None` goes through
`cast_tensor` (re-assigning `None` to itself models the skipped branch). -/
noncomputable def dielectricStep : SVal → Except String SVal
  | .noneV => .ok .noneV
  | v => do
    let a ← cast_tensor v
    return .arr a

/-- Lines 52-53: an `elastic_constant` that is not `None` goes through
`cast_elastic_tensor`. -/
noncomputable def elasticStep : SVal → Except String SVal
  | .noneV => .ok .noneV
  | v => do
    let a ← cast_elastic_tensor v
    return .arr a

/-- Lines 55-56: `np.asarray(value, dtype=float)` — the final coercion of
`doping` and `temperatures` to numeric array form. -/
def asarrayStep : SVal → Except String SVal
  | v =>
    match asarray v with
    | some a => .ok (.arr a)
    | Option.none => .error "could not convert value to a float array"

/-- The normalisation pipeline of `validate_settings` (lines 27-56), run on
the merged settings in source order. -/
noncomputable def normalize_settings (st : Settings) : Except String Settings := do
  let st ← stepOn "doping" dopingStep st
  let st ← stepOn "temperatures" temperaturesStep st
  let st ← stepOn "deformation_potential" deformationStep st
  let st ← stepOn "static_dielectric" dielectricStep st
  let st ← stepOn "high_frequency_dielectric" dielectricStep st
  let st ← stepOn "elastic_constant" elasticStep st
  let st ← stepOn "doping" asarrayStep st
  let st ← stepOn "temperatures" asarrayStep st
  return st

/-- `validate_settings` (util.py lines 20-62): deep-copy the defaults,
overlay the user settings, normalise, then reject the first key that is
not in the default schema. -/
noncomputable def validate_settings (user : Settings) : Except String Settings := do
  let merged := dictUpdate defaults user
  let st ← normalize_settings merged
  match st.find? (fun kv => !(defaults.any (fun d => d.1 == kv.1))) with
  | some kv => .error ("Unrecognised setting: " ++ kv.1)
  | Option.none => return st

/-! ## The mesh codec (util.py lines 303-363)

Mesh arrays only ever meet equality tests here, so their elements are
modelled as `ℚ` (exact float values) to keep every pipeline evaluation
kernel-decidable.  The HDF5 file is modelled per the spec's container
interface: a named-entry store where each entry carries its type (numeric
dataset with a compression flag, byte-string blob, byte-string array, or
scalar/boolean), read back in storage order. -/

/-- `pymatgen.electronic_structure.core.Spin`, the two-valued spin
enumeration. -/
inductive Spin where
  | up
  | down
deriving DecidableEq

/-- `Spin.name` (the enum member's name). -/
def Spin.name : Spin → String
  | .up => "up"
  | .down => "down"

/-- Modelled from the spec: `str_to_spin` from `amset.constants` (not under
`src/`) maps the spin suffix tokens `"up"`/`"down"` back to the spin
enumeration; any other token is a `KeyError`. -/
def str_to_spin (s : String) : Option Spin :=
  if s = "up" then some .up else if s = "down" then some .down else Option.none

/-- A plain (non-spin-resolved) Python value handed to `add_data`: a numeric
array, a pymatgen `Structure` (identified by its JSON serialisation), a
list of strings, a list/tuple of numbers, `None`, or a plain scalar. -/
inductive MVal where
  | arr (xs : List ℚ)
  | structure_ (json : String)
  | strList (xs : List String)
  | numList (xs : List ℚ)
  | noneV
  | scalar (x : ℚ)
deriving DecidableEq

/-- A top-level mesh value: plain, or a spin-resolved dict (insertion
order kept, as a Python dict). -/
inductive MEntry where
  | plain (v : MVal)
  | spins (sv : List (Spin × MVal))
deriving DecidableEq

/-- One stored container entry. -/
inductive Stored where
  | darr (xs : List ℚ) (compressed : Bool)
  | bytes (s : String)
  | sarr (xs : List String)
  | boolv (b : Bool)
  | snum (x : ℚ)
deriving DecidableEq

/-- The container file: named entries in storage order. -/
abbrev MeshStore := List (String × Stored)

/-- `add_data` (util.py lines 309-322): type dispatch of one value.  An
ndarray becomes a gzip-compressed dataset; a `Structure` is stored as a
byte-string blob under the literal name `"structure"` (whatever `name`
was); a list/tuple whose first element is a string becomes a byte-string
array, otherwise an uncompressed numeric dataset; `None` becomes the
boolean-false sentinel; any other scalar is stored as-is. -/
def add_data (store : MeshStore) (name : String) (data : MVal) : MeshStore :=
  match data with
  | .arr xs => store ++ [(name, .darr xs true)]
  | .structure_ j => store ++ [("structure", .bytes j)]
  | .strList xs => store ++ [(name, .sarr xs)]
  | .numList xs => store ++ [(name, .darr xs false)]
  | .noneV => store ++ [(name, .boolv false)]
  | .scalar x => store ++ [(name, .snum x)]

/-- `write_mesh_data` (util.py lines 303-331).  NOTE: for a spin-resolved
value the source re-assigns the loop variable `key` itself
(`key = "{}_{}".format(key, spin.name)`, line 328), so the second spin
entry's name is built from the already-suffixed first name; the inner fold
threads that mutated `key` exactly as the Python loop does. -/
def write_mesh_data (mesh : List (String × MEntry)) : MeshStore :=
  mesh.foldl
    (fun store kv =>
      match kv.2 with
      | .spins sv =>
        (sv.foldl
          (fun acc s =>
            let key := acc.2 ++ "_" ++ s.1.name
            (add_data acc.1 key s.2, key))
          (store, kv.1)).1
      | .plain v => add_data store kv.1 v)
    []

/-- A value returned by `read_data`. -/
inductive LVal where
  | arr (xs : List ℚ)
  | structure_ (json : String)
  | strs (xs : List String)
  | bstr (s : String)
  | bstrs (xs : List String)
  | boolv (b : Bool)
  | num (x : ℚ)
  | noneV
deriving DecidableEq

/-- A stored entry surfaced unchanged (`data[()]`). -/
def toLVal : Stored → LVal
  | .darr xs _ => .arr xs
  | .bytes s => .bstr s
  | .sarr xs => .bstrs xs
  | .boolv b => .boolv b
  | .snum x => .num x

/-- `read_data` (util.py lines 340-349): `"structure"` decodes the JSON
blob back to a `Structure` (`from_str ∘ to_json` is the identity on the
record, so the JSON text itself represents it); `"scattering_labels"`
decodes as fixed-width 13-character text (`astype("U13")` truncates longer
strings); `"vb_idx"` surfaces the boolean-false sentinel as `None` (the
`d is not False` identity test, modelled as value equality per the
container interface); everything else is returned unchanged.  The error
cases model the exceptions a wrongly-typed entry raises. -/
def read_data (name : String) (d : Stored) : Except String LVal :=
  if name = "structure" then
    match d with
    | .bytes s => .ok (.structure_ s)
    | _ => .error "structure entry is not a JSON blob"
  else if name = "scattering_labels" then
    match d with
    | .sarr xs => .ok (.strs (xs.map (fun x => x.take 13)))
    | _ => .error "scattering_labels entry is not a string array"
  else if name = "vb_idx" then
    if d = .boolv false then .ok .noneV else .ok (toLVal d)
  else .ok (toLVal d)

/-- A value of the mapping `load_mesh_data` returns. -/
inductive MeshOut where
  | plain (v : LVal)
  | spins (sv : List (Spin × LVal))
deriving DecidableEq

/-- `load_mesh_data` (util.py lines 334-363): iterate the stored entries;
a name containing `_up` or `_down` is a spin entry — the spin is the last
`_`-separated token, the logical key is the name with `_<spin>` deleted,
and the decoded value goes into a nested per-spin dict under that key
(created on first encounter; Python's item assignment on an existing
non-dict entry raises).  Every other name decodes directly under itself. -/
def load_mesh_data (store : MeshStore) : Except String (List (String × MeshOut)) :=
  store.foldlM
    (fun mesh kv => do
      let key := kv.1
      if strContains key "_up" || strContains key "_down" then
        match str_to_spin ⟨(splitOnChar key.data '_').getLastD []⟩ with
        | Option.none => .error ("KeyError: " ++ (⟨(splitOnChar key.data '_').getLastD []⟩ : String))
        | some spin => do
          let key2 := pyRemove key ("_" ++ spin.name)
          let v ← read_data key2 kv.2
          match getKey mesh key2 with
          | Option.none => return mesh ++ [(key2, .spins [(spin, v)])]
          | some (.spins sv) => return setKey mesh key2 (.spins (setKey sv spin v))
          | some (.plain _) => .error ("TypeError: entry " ++ key2 ++ " is not a dict")
      else do
        let v ← read_data key kv.2
        return setKey mesh key (.plain v))
    []

/-! ## `cast_dict_ndarray` (util.py lines 178-198) -/

/-- A dict key met by `cast_dict_ndarray`: a string or a spin. -/
inductive DKey where
  | str (s : String)
  | spin (sp : Spin)
deriving DecidableEq

/-- A value met by `cast_dict_ndarray`: a nested dict, a list (cast to an
array), an array, or anything else (left untouched). -/
inductive DVal where
  | dict (entries : List (DKey × DVal))
  | list (xs : List ℚ)
  | arr (xs : List ℚ)
  | scalar (x : ℚ)

/-- The key cast of util.py lines 187-188: a string key `"up"` or `"down"`
is replaced by `Spin.up if "k" == "up" else Spin.up` — the condition
compares the literal `"k"` with `"up"`, and both branches are `Spin.up`,
so every such key becomes `Spin.up`. -/
def castDictKey (k : DKey) : DKey :=
  match k with
  | .str s =>
    if s = "up" ∨ s = "down" then
      .spin (if ("k" : String) = "up" then Spin.up else Spin.up)
    else .str s
  | other => other

mutual
/-- The value branch of `cast_dict_ndarray`: mappings recurse, lists become
arrays, everything else passes through. -/
def castDictVal : DVal → DVal
  | .dict es => .dict (castDictEntries [] es)
  | .list xs => .arr xs
  | .arr xs => .arr xs
  | .scalar x => .scalar x

/-- The rebuild loop of one dict level: `new_d[k] = v` for every entry in
iteration order (util.py lines 191/197), with the key cast by
`castDictKey` and the value by `castDictVal`.  `acc` is `new_d` so far;
dict assignment overwrites an existing key in place, so when two source
keys cast to the same key (both `"up"` and `"down"` become `Spin.up`) the
later value wins and only one entry remains. -/
def castDictEntries (acc : List (DKey × DVal)) : List (DKey × DVal) → List (DKey × DVal)
  | [] => acc
  | (k, v) :: rest => castDictEntries (setKey acc (castDictKey k) (castDictVal v)) rest
end

/-- `cast_dict_ndarray` (util.py lines 178-198): `None` passes through,
a dict is rebuilt into the fresh `new_d = {}` entry by entry. -/
def cast_dict_ndarray : Option (List (DKey × DVal)) → Option (List (DKey × DVal))
  | Option.none => Option.none
  | some es => some (castDictEntries [] es)

/-! ## Helper lemmas: dictionaries -/

theorem getKey_mem {κ ν : Type} [DecidableEq κ] {d : List (κ × ν)} {k : κ} {v : ν}
    (h : getKey d k = some v) : k ∈ keysOf d := by
  unfold getKey at h
  obtain ⟨kv, hfind⟩ : ∃ kv, d.find? (fun kv => decide (kv.1 = k)) = some kv := by
    cases hf : d.find? (fun kv => decide (kv.1 = k)) with
    | none => rw [hf] at h; simp at h
    | some kv => exact ⟨kv, rfl⟩
  have hmem := List.mem_of_find?_eq_some hfind
  have hp := List.find?_some hfind
  simp only [decide_eq_true_eq] at hp
  exact hp ▸ List.mem_map_of_mem Prod.fst hmem

theorem keysOf_setKey_of_mem {κ ν : Type} [DecidableEq κ] {d : List (κ × ν)} {k : κ}
    (v : ν) (h : k ∈ keysOf d) : keysOf (setKey d k v) = keysOf d := by
  unfold setKey
  rw [if_pos h]
  unfold keysOf
  rw [List.map_map]
  refine List.map_congr_left (fun kv _ => ?_)
  by_cases hk : kv.1 = k
  · simp [hk]
  · simp [hk]

theorem mem_keysOf_setKey {κ ν : Type} [DecidableEq κ] {d : List (κ × ν)} {k a : κ}
    {v : ν} : a ∈ keysOf (setKey d k v) ↔ a ∈ keysOf d ∨ a = k := by
  by_cases h : k ∈ keysOf d
  · rw [keysOf_setKey_of_mem v h]
    constructor
    · exact Or.inl
    · rintro (ha | rfl)
      · exact ha
      · exact h
  · unfold setKey
    rw [if_neg h]
    unfold keysOf
    simp

theorem mem_keysOf_dictUpdate {κ ν : Type} [DecidableEq κ] {u d : List (κ × ν)} {a : κ} :
    a ∈ keysOf (dictUpdate d u) ↔ a ∈ keysOf d ∨ a ∈ keysOf u := by
  induction u generalizing d with
  | nil => simp [dictUpdate, keysOf]
  | cons kv rest ih =>
    unfold dictUpdate at ih ⊢
    rw [List.foldl_cons, ih, mem_keysOf_setKey]
    unfold keysOf
    simp only [List.map_cons, List.mem_cons]
    tauto

theorem except_bind_ok {α β : Type} {x : Except String α} {f : α → Except String β}
    {b : β} (h : (x >>= f) = .ok b) : ∃ a, x = .ok a ∧ f a = .ok b := by
  cases x with
  | error e => simp [Bind.bind, Except.bind] at h
  | ok a => exact ⟨a, rfl, h⟩

theorem stepOn_keys {k : String} {f : SVal → Except String SVal} {st st2 : Settings}
    (h : stepOn k f st = .ok st2) : keysOf st2 = keysOf st := by
  unfold stepOn at h
  split at h
  · exact absurd h (by simp)
  · rename_i v hg
    obtain ⟨v2, hf, h2⟩ := except_bind_ok h
    simp only [pure, Except.pure, Except.ok.injEq] at h2
    rw [← h2]
    exact keysOf_setKey_of_mem v2 (getKey_mem hg)

theorem normalize_settings_keys {st st2 : Settings}
    (h : normalize_settings st = .ok st2) : keysOf st2 = keysOf st := by
  unfold normalize_settings at h
  obtain ⟨a1, h1, h⟩ := except_bind_ok h
  obtain ⟨a2, h2, h⟩ := except_bind_ok h
  obtain ⟨a3, h3, h⟩ := except_bind_ok h
  obtain ⟨a4, h4, h⟩ := except_bind_ok h
  obtain ⟨a5, h5, h⟩ := except_bind_ok h
  obtain ⟨a6, h6, h⟩ := except_bind_ok h
  obtain ⟨a7, h7, h⟩ := except_bind_ok h
  obtain ⟨a8, h8, h⟩ := except_bind_ok h
  simp only [pure, Except.pure, Except.ok.injEq] at h
  rw [← h]
  calc keysOf a8 = keysOf a7 := stepOn_keys h8
    _ = keysOf a6 := stepOn_keys h7
    _ = keysOf a5 := stepOn_keys h6
    _ = keysOf a4 := stepOn_keys h5
    _ = keysOf a3 := stepOn_keys h4
    _ = keysOf a2 := stepOn_keys h3
    _ = keysOf a1 := stepOn_keys h2
    _ = keysOf st := stepOn_keys h1

theorem anyKey_iff {d : Settings} {k : String} :
    (d.any (fun e => e.1 == k) = true) ↔ k ∈ keysOf d := by
  rw [List.any_eq_true]
  constructor
  · rintro ⟨e, he, hb⟩
    rw [beq_iff_eq] at hb
    exact hb ▸ List.mem_map_of_mem Prod.fst he
  · intro hk
    obtain ⟨e, he, hfst⟩ := List.mem_map.mp hk
    exact ⟨e, he, by rw [beq_iff_eq, hfst]⟩

/-! ## Helper lemmas: linspace and geomspace -/

theorem length_linspace (lo hi : ℝ) (n : ℕ) : (linspace lo hi n).length = n := by
  unfold linspace
  rw [List.length_map, List.length_range]

theorem linspace_getD {lo hi : ℝ} {n i : ℕ} (h : i < n) :
    (linspace lo hi n).getD i 0 = lo + (i : ℝ) * (hi - lo) / ((n : ℝ) - 1) := by
  unfold linspace
  rw [List.getD_eq_getElem?_getD, List.getElem?_map, List.getElem?_range h]
  rfl

theorem linspace_head {lo hi : ℝ} {n : ℕ} (h : 1 ≤ n) :
    (linspace lo hi n).getD 0 0 = lo := by
  rw [linspace_getD h]
  simp

theorem linspace_last {lo hi : ℝ} {n : ℕ} (h : 2 ≤ n) :
    (linspace lo hi n).getD (n - 1) 0 = hi := by
  rw [linspace_getD (by omega)]
  have hn : ((n : ℝ) - 1) ≠ 0 := by
    have : (2 : ℝ) ≤ (n : ℝ) := by exact_mod_cast h
    nlinarith
  have hc : ((n - 1 : ℕ) : ℝ) = (n : ℝ) - 1 := by
    push_cast [Nat.cast_sub (by omega : 1 ≤ n)]
    ring
  rw [hc]
  field_simp

theorem linspace_step {lo hi : ℝ} {n i : ℕ} (h : i + 1 < n) :
    (linspace lo hi n).getD (i + 1) 0
      = (linspace lo hi n).getD i 0 + (hi - lo) / ((n : ℝ) - 1) := by
  rw [linspace_getD h, linspace_getD (by omega)]
  push_cast
  ring

theorem length_geomspace (lo hi : ℝ) (n : ℕ) : (geomspace lo hi n).length = n := by
  unfold geomspace
  rw [List.length_map, List.length_range]

theorem geomspace_getD {lo hi : ℝ} {n i : ℕ} (h : i < n) :
    (geomspace lo hi n).getD i 0 = lo * (hi / lo) ^ ((i : ℝ) / ((n : ℝ) - 1)) := by
  unfold geomspace
  rw [List.getD_eq_getElem?_getD, List.getElem?_map, List.getElem?_range h]
  rfl

theorem geomspace_head {lo hi : ℝ} {n : ℕ} (h : 1 ≤ n) :
    (geomspace lo hi n).getD 0 0 = lo := by
  rw [geomspace_getD h]
  simp [Real.rpow_zero]

theorem geomspace_last {lo hi : ℝ} {n : ℕ} (h : 2 ≤ n) (hlo : lo ≠ 0) :
    (geomspace lo hi n).getD (n - 1) 0 = hi := by
  rw [geomspace_getD (by omega)]
  have hn : ((n : ℝ) - 1) ≠ 0 := by
    have : (2 : ℝ) ≤ (n : ℝ) := by exact_mod_cast h
    nlinarith
  have hc : ((n - 1 : ℕ) : ℝ) = (n : ℝ) - 1 := by
    push_cast [Nat.cast_sub (by omega : 1 ≤ n)]
    ring
  rw [hc, div_self hn, Real.rpow_one, mul_comm, div_mul_cancel₀ _ hlo]

theorem geomspace_step {lo hi : ℝ} {n i : ℕ} (h : i + 1 < n) (hr : 0 < hi / lo) :
    (geomspace lo hi n).getD (i + 1) 0
      = (geomspace lo hi n).getD i 0 * (hi / lo) ^ ((1 : ℝ) / ((n : ℝ) - 1)) := by
  rw [geomspace_getD h, geomspace_getD (by omega)]
  have he : ((i + 1 : ℕ) : ℝ) / ((n : ℝ) - 1)
      = (i : ℝ) / ((n : ℝ) - 1) + (1 : ℝ) / ((n : ℝ) - 1) := by
    push_cast
    ring
  rw [he, Real.rpow_add hr, mul_assoc]

/-! ## Claim theorems -/

/-- A mesh mapping with one spin-resolved entry, both spins present (the
spec's own round-trip example `{"energies": {up: A, down: B}}` with
`A = [1.0]`, `B = [2.0]`). -/
def meshSpinExample : List (String × MEntry) :=
  [("energies", .spins [(.up, .arr [1]), (.down, .arr [2])])]

/-- C1: the claimed round trip `load_mesh_data (write_mesh_data x) = x`
fails on a two-spin entry.  Because `write_mesh_data` re-assigns the loop
variable `key` inside the spin loop, `{"energies": {up: [1], down: [2]}}`
is stored as entries `energies_up` and `energies_up_down`, and reading the
file back yields `{"energies": {up: [1]}, "energies_up": {down: [2]}}` —
not a mapping with the two spin keys under `energies`. -/
theorem write_read_spin_round_trip_bug :
    write_mesh_data meshSpinExample
      = [("energies_up", .darr [1] true), ("energies_up_down", .darr [2] true)]
    ∧ load_mesh_data (write_mesh_data meshSpinExample)
      = .ok [("energies", .spins [(.up, .arr [1])]),
             ("energies_up", .spins [(.down, .arr [2])])]
    ∧ ([("energies", MeshOut.spins [(.up, .arr [1])]),
        ("energies_up", MeshOut.spins [(.down, .arr [2])])]
        ≠ [("energies", MeshOut.spins [(.up, .arr [1]), (.down, .arr [2])])]) :=
  ⟨by decide, by rfl, by decide⟩

/-- C2: the claimed on-disk names `K_up` and `K_down` are not what
`write_mesh_data` produces for a two-spin entry: the names are
`energies_up` and `energies_up_down` (the `key` variable is re-assigned
inside the spin loop, util.py line 328). -/
theorem write_spin_entry_names_bug :
    keysOf (write_mesh_data meshSpinExample) = ["energies_up", "energies_up_down"]
    ∧ (["energies_up", "energies_up_down"] : List String)
        ≠ ["energies_up", "energies_down"] := by
  exact ⟨by decide, by decide⟩

/-- C4 counterexample: a 1-D input of length 2 does not raise
`UnsupportedTensorShape` — `cast_tensor` returns its 2×2 diagonal matrix
(`np.diag` is applied to every 1-D input regardless of length,
util.py lines 72-73). -/
theorem cast_tensor_vec2_counterexample :
    cast_tensor (.arr ⟨[2], [1, 2]⟩) = .ok ⟨[2, 2], [1, 0, 0, 2]⟩ := by rfl

/-- C4 (amended): a numeric scalar gives `x·I₃`; a length-3 sequence gives
its 3×3 diagonal matrix; a `(3, 3)` input passes through unchanged; a 1-D
input of any length `n` gives its `n×n` diagonal matrix (no error); the
`UnsupportedTensorShape` error is raised exactly for inputs of rank ≠ 1
whose shape is not `(3, 3)`. -/
theorem cast_tensor_cases :
    (∀ x : ℝ, cast_tensor (.num x) = .ok ⟨[3, 3], [x, 0, 0, 0, x, 0, 0, 0, x]⟩)
    ∧ (∀ a b c : ℝ, cast_tensor (.arr ⟨[3], [a, b, c]⟩)
        = .ok ⟨[3, 3], [a, 0, 0, 0, b, 0, 0, 0, c]⟩)
    ∧ (∀ a : NDArr, a.shape = [3, 3] → cast_tensor (.arr a) = .ok a)
    ∧ (∀ xs : List ℝ, cast_tensor (.arr ⟨[xs.length], xs⟩) = .ok (diagMat xs))
    ∧ (∀ a : NDArr, a.shape.length ≠ 1 → a.shape ≠ [3, 3] →
        cast_tensor (.arr a) = .error "Unsupported tensor shape.") := by
  refine ⟨fun x => rfl, fun a b c => rfl, fun a h => ?_, fun xs => ?_, fun a h1 h2 => ?_⟩
  · simp [cast_tensor, asarray, h]
  · simp [cast_tensor, asarray]
  · simp [cast_tensor, asarray, h1, h2]

/-- C4 witness: the hypotheses of the pass-through and error cases hold at
concrete inputs. -/
theorem cast_tensor_cases_witness :
    cast_tensor (.arr ⟨[3, 3], [1, 2, 3, 4, 5, 6, 7, 8, 9]⟩)
      = .ok ⟨[3, 3], [1, 2, 3, 4, 5, 6, 7, 8, 9]⟩
    ∧ cast_tensor (.arr ⟨[2, 2], [1, 2, 3, 4]⟩)
      = .error "Unsupported tensor shape." :=
  ⟨cast_tensor_cases.2.2.1 _ rfl,
   cast_tensor_cases.2.2.2.2 _ (by decide) (by decide)⟩

/-- C7: writing `{"vb_idx": None}` stores the boolean-false sentinel, and
reading it back surfaces `None` again (not the literal `False`). -/
theorem vb_idx_none_round_trip :
    write_mesh_data [("vb_idx", .plain .noneV)] = [("vb_idx", .boolv false)]
    ∧ load_mesh_data [("vb_idx", .boolv false)] = .ok [("vb_idx", .plain .noneV)]
    ∧ load_mesh_data (write_mesh_data [("vb_idx", .plain .noneV)])
        = .ok [("vb_idx", .plain .noneV)] :=
  ⟨by decide, by rfl, by rfl⟩

/-- C9 counterexample: the claim quantifies over every key `K ≠ "vb_idx"`,
but a key containing a spin suffix is not read back under `K` at all:
writing `{"foo_up": None}` and reading back yields a nested spin mapping
under `"foo"`, and no entry `"foo_up"`. -/
theorem none_sentinel_spin_key_counterexample :
    load_mesh_data (write_mesh_data [("foo_up", .plain .noneV)])
      = .ok [("foo", .spins [(.up, .boolv false)])]
    ∧ getKey [("foo", MeshOut.spins [(.up, .boolv false)])] "foo_up" = Option.none :=
  ⟨by rfl, by rfl⟩

/-- C9 (amended): for every top-level key other than the reserved names
`vb_idx`, `structure`, `scattering_labels` and not containing `_up` or
`_down`, a `None` value is stored as the boolean-false sentinel and read
back as the literal `False` — the sentinel-to-`None` decoding is applied
only to `vb_idx`. -/
theorem none_sentinel_generic_key :
    ∀ K : String, K ≠ "vb_idx" → K ≠ "structure" → K ≠ "scattering_labels" →
    strContains K "_up" = false → strContains K "_down" = false →
    write_mesh_data [(K, .plain .noneV)] = [(K, .boolv false)]
    ∧ load_mesh_data [(K, .boolv false)] = .ok [(K, .plain (.boolv false))] := by
  intro K h1 h2 h3 h4 h5
  refine ⟨rfl, ?_⟩
  simp [load_mesh_data, List.foldlM, read_data, toLVal, setKey, keysOf, h1, h2, h3, h4, h5]

/-- C9 witness: the amended statement at the concrete key `"foo"`. -/
theorem none_sentinel_generic_key_witness :
    write_mesh_data [("foo", .plain .noneV)] = [("foo", .boolv false)]
    ∧ load_mesh_data [("foo", .boolv false)] = .ok [("foo", .plain (.boolv false))] :=
  none_sentinel_generic_key "foo" (by decide) (by decide) (by decide) (by decide) (by decide)

/-- The keys of the rebuilt dict level are the accumulator's keys plus the
cast of every source key (dict assignment only ever writes cast keys). -/
theorem mem_keysOf_castDictEntries (es : List (DKey × DVal)) :
    ∀ (acc : List (DKey × DVal)) (k : DKey),
      k ∈ keysOf (castDictEntries acc es)
        ↔ k ∈ keysOf acc ∨ ∃ p ∈ es, castDictKey p.1 = k := by
  induction es with
  | nil =>
    intro acc k
    rw [castDictEntries]
    simp
  | cons kv rest ih =>
    intro acc k
    cases kv with
    | mk k0 v0 =>
      rw [castDictEntries, ih, mem_keysOf_setKey]
      simp only [List.mem_cons]
      constructor
      · rintro ((ha | rfl) | ⟨p, hp, hc⟩)
        · exact Or.inl ha
        · exact Or.inr ⟨(k0, v0), Or.inl rfl, rfl⟩
        · exact Or.inr ⟨p, Or.inr hp, hc⟩
      · rintro (ha | ⟨p, hp | hp, hc⟩)
        · exact Or.inl (Or.inl ha)
        · exact Or.inl (Or.inr (by rw [← hc, hp]))
        · exact Or.inr ⟨p, hp, hc⟩

/-- C10: `cast_dict_ndarray` sends both string keys `"up"` and `"down"` to
`Spin.up` — the branch `Spin.up if "k" == "up" else Spin.up` compares the
literal `"k"` with `"up"` and both arms are `Spin.up` — so a mapping keyed
`"down"` is returned keyed `Spin.up`; consequently, when both `"up"` and
`"down"` are present the two dict assignments collide on `Spin.up` and
the later value overwrites the earlier one, leaving a single `Spin.up`
entry holding the last value. -/
theorem cast_dict_ndarray_spin_up :
    castDictKey (.str "up") = .spin Spin.up
    ∧ castDictKey (.str "down") = .spin Spin.up
    ∧ (∀ (es : List (DKey × DVal)) (p : DKey × DVal),
        p ∈ es → (p.1 = .str "up" ∨ p.1 = .str "down") →
        DKey.spin Spin.up ∈ keysOf (castDictEntries [] es)
        ∧ cast_dict_ndarray (some es) = some (castDictEntries [] es))
    ∧ (∀ v : DVal, cast_dict_ndarray (some [(.str "down", v)])
        = some [(.spin Spin.up, castDictVal v)])
    ∧ (∀ v1 v2 : DVal,
        cast_dict_ndarray (some [(.str "up", v1), (.str "down", v2)])
          = some [(.spin Spin.up, castDictVal v2)]) := by
  refine ⟨rfl, rfl, fun es p hmem hk => ⟨?_, rfl⟩, fun v => rfl, fun v1 v2 => rfl⟩
  have hkey : castDictKey p.1 = .spin Spin.up := by
    rcases hk with hk | hk <;> rw [hk] <;> rfl
  exact (mem_keysOf_castDictEntries es [] _).mpr (Or.inr ⟨p, hmem, hkey⟩)

/-- C10 witness: with both spin keys present (`{"up": [1], "down": [2]}`)
the result is the single entry `{Spin.up: array([2])}`, and a dict keyed
only `"down"` comes back keyed `Spin.up`. -/
theorem cast_dict_ndarray_spin_up_witness :
    (DKey.spin Spin.up ∈ keysOf (castDictEntries [] [(.str "down", .list [1])])
      ∧ cast_dict_ndarray (some [(.str "down", .list [1])])
          = some (castDictEntries [] [(.str "down", .list [1])]))
    ∧ cast_dict_ndarray (some [(.str "up", .list [1]), (.str "down", .list [2])])
        = some [(.spin Spin.up, castDictVal (.list [2]))] :=
  ⟨cast_dict_ndarray_spin_up.2.2.1 [(.str "down", .list [1])] (.str "down", .list [1])
      (List.mem_singleton.mpr rfl) (Or.inr rfl),
   cast_dict_ndarray_spin_up.2.2.2.2 (.list [1]) (.list [2])⟩

/-- C8 counterexample: the parse error message does not contain the
offending original input verbatim — for the input `"1, a"` (with its
space) the message carries the whitespace-stripped `"1,a"`, and the
original string is not a substring of the message. -/
theorem error_message_verbatim_counterexample :
    parse_doping "1, a" = .error "ERROR: Unrecognised doping format: 1,a"
    ∧ strContains "ERROR: Unrecognised doping format: 1,a" "1, a" = false :=
  ⟨by rfl, by decide⟩

/-- C8 (amended): every error the three grammar parsers raise carries the
whitespace-stripped input string (`s.strip().replace(" ", "")` is applied
before the `try:` block), not the caller's original string verbatim. -/
theorem error_message_stripped :
    (∀ s e, parse_doping s = .error e → e = dopingMsg (pyStrip s))
    ∧ (∀ s e, parse_temperatures s = .error e → e = temperatureMsg (pyStrip s))
    ∧ (∀ s e, parse_deformation_potential s = .error e → e = deformationMsg (pyStrip s)) := by
  refine ⟨fun s e h => ?_, fun s e h => ?_, fun s e h => ?_⟩
  · simp only [parse_doping] at h
    split at h
    · exact absurd h (by simp)
    · exact (Except.error.inj h).symm
  · simp only [parse_temperatures] at h
    split at h
    · exact absurd h (by simp)
    · exact (Except.error.inj h).symm
  · simp only [parse_deformation_potential] at h
    split at h
    · exact absurd h (by simp)
    · split at h
      · exact absurd h (by simp)
      · exact absurd h (by simp)
      · exact (Except.error.inj h).symm

/-- C8 witness: the doping message for the failing input `"1, a"` is the
stripped form. -/
theorem error_message_stripped_witness :
    ("ERROR: Unrecognised doping format: 1,a" : String) = dopingMsg (pyStrip "1, a") :=
  error_message_stripped.1 "1, a" _ (by rfl)

/-- C5 counterexample: for `n = 1` the single returned point is `lo`, so
the result is not "from lo to hi inclusive at both ends" — `hi = 100` is
not among the points of `parse_doping "1:100:1"`. -/
theorem parse_doping_n1_counterexample :
    parse_doping "1:100:1" = .ok [(1 : ℝ)]
    ∧ (100 : ℝ) ∉ ([(1 : ℝ)] : List ℝ) := by
  constructor
  · have h1 : parse_doping "1:100:1" = .ok (geomspace ((1 : ℚ) : ℝ) ((100 : ℚ) : ℝ) 1) := by
      rfl
    rw [h1]
    norm_num [geomspace, List.range_succ, Real.rpow_zero]
  · norm_num

/-- C5 (amended): on a colon string whose 3 parts parse as floats
`lo:hi:n` with `lo`, `hi` nonzero of the same sign and `n ≥ 0`,
`parse_doping` returns `np.geomspace(lo, hi, n)`: `n` points, the first is
`lo` (when `n ≥ 1`), the last is `hi` (when `n ≥ 2`), and consecutive
points are in the constant ratio `(hi/lo)^(1/(n-1))` — geometric spacing,
inclusive at both ends only from `n ≥ 2`.  A colon string with a numeric
part count other than 3 raises the doping format error. -/
theorem parse_doping_colon :
    (∀ (s : String) (parts : List ℚ),
      strContains (pyStrip s) ":" = true →
      (pySplit (pyStrip s) ':').mapM parseFloat = some parts →
      parts.length ≠ 3 →
      parse_doping s = .error (dopingMsg (pyStrip s)))
    ∧ (∀ (s : String) (lo hi nq : ℚ),
      strContains (pyStrip s) ":" = true →
      (pySplit (pyStrip s) ':').mapM parseFloat = some [lo, hi, nq] →
      0 < lo.num * hi.num →
      0 ≤ pyInt nq →
      parse_doping s = .ok (geomspace (lo : ℝ) (hi : ℝ) (pyInt nq).toNat)
      ∧ (geomspace (lo : ℝ) (hi : ℝ) (pyInt nq).toNat).length = (pyInt nq).toNat
      ∧ (1 ≤ (pyInt nq).toNat →
          (geomspace (lo : ℝ) (hi : ℝ) (pyInt nq).toNat).getD 0 0 = (lo : ℝ))
      ∧ (2 ≤ (pyInt nq).toNat →
          (geomspace (lo : ℝ) (hi : ℝ) (pyInt nq).toNat).getD ((pyInt nq).toNat - 1) 0
            = (hi : ℝ))
      ∧ (∀ i : ℕ, i + 1 < (pyInt nq).toNat →
          (geomspace (lo : ℝ) (hi : ℝ) (pyInt nq).toNat).getD (i + 1) 0
            = (geomspace (lo : ℝ) (hi : ℝ) (pyInt nq).toNat).getD i 0
              * ((hi : ℝ) / (lo : ℝ)) ^ ((1 : ℝ) / (((pyInt nq).toNat : ℝ) - 1)))) := by
  constructor
  · intro s parts hc hm hlen
    simp only [parse_doping, doping_core, hc, if_true, hm, if_neg hlen]
  · intro s lo hi nq hc hm hsign hn
    have hq : 0 < (hi : ℝ) / (lo : ℝ) := by
      rcases mul_pos_iff.mp hsign with ⟨h1, h2⟩ | ⟨h1, h2⟩
      · have hlo : (0 : ℝ) < (lo : ℝ) := by exact_mod_cast Rat.num_pos.mp h1
        have hhi : (0 : ℝ) < (hi : ℝ) := by exact_mod_cast Rat.num_pos.mp h2
        exact div_pos hhi hlo
      · have hlo : (lo : ℝ) < 0 := by exact_mod_cast Rat.num_neg.mp h1
        have hhi : (hi : ℝ) < 0 := by exact_mod_cast Rat.num_neg.mp h2
        exact div_pos_of_neg_of_neg hhi hlo
    have hlo0 : (lo : ℝ) ≠ 0 := by
      rcases mul_pos_iff.mp hsign with ⟨h1, _⟩ | ⟨h1, _⟩
      · exact ne_of_gt (by exact_mod_cast Rat.num_pos.mp h1)
      · exact ne_of_lt (by exact_mod_cast Rat.num_neg.mp h1)
    refine ⟨?_, length_geomspace _ _ _,
      fun h1 => geomspace_head h1,
      fun h2 => geomspace_last h2 hlo0,
      fun i hi2 => geomspace_step hi2 hq⟩
    simp only [parse_doping, doping_core, hc, if_true, hm]
    simp only [List.length_cons, List.length_nil, if_true, List.getD_cons_zero,
      List.getD_cons_succ]
    rw [if_neg (not_le.mpr hsign), if_neg (not_lt.mpr hn)]

/-- C5 witness: the spec's own example `"1e18:1e20:5"` satisfies every
hypothesis of the colon case: it yields `np.geomspace(1e18, 1e20, 5)`,
5 points, first `1e18`, last `1e20`, consecutive ratio constant. -/
theorem parse_doping_colon_witness :
    parse_doping "1e18:1e20:5"
      = .ok (geomspace ((mkRat (10 ^ 18) 1 : ℚ) : ℝ) ((mkRat (10 ^ 20) 1 : ℚ) : ℝ)
          (pyInt (5 : ℚ)).toNat)
    ∧ (geomspace ((mkRat (10 ^ 18) 1 : ℚ) : ℝ) ((mkRat (10 ^ 20) 1 : ℚ) : ℝ)
          (pyInt (5 : ℚ)).toNat).length = (pyInt (5 : ℚ)).toNat
    ∧ (1 ≤ (pyInt (5 : ℚ)).toNat →
        (geomspace ((mkRat (10 ^ 18) 1 : ℚ) : ℝ) ((mkRat (10 ^ 20) 1 : ℚ) : ℝ)
          (pyInt (5 : ℚ)).toNat).getD 0 0 = ((mkRat (10 ^ 18) 1 : ℚ) : ℝ))
    ∧ (2 ≤ (pyInt (5 : ℚ)).toNat →
        (geomspace ((mkRat (10 ^ 18) 1 : ℚ) : ℝ) ((mkRat (10 ^ 20) 1 : ℚ) : ℝ)
          (pyInt (5 : ℚ)).toNat).getD ((pyInt (5 : ℚ)).toNat - 1) 0
          = ((mkRat (10 ^ 20) 1 : ℚ) : ℝ))
    ∧ (∀ i : ℕ, i + 1 < (pyInt (5 : ℚ)).toNat →
        (geomspace ((mkRat (10 ^ 18) 1 : ℚ) : ℝ) ((mkRat (10 ^ 20) 1 : ℚ) : ℝ)
          (pyInt (5 : ℚ)).toNat).getD (i + 1) 0
          = (geomspace ((mkRat (10 ^ 18) 1 : ℚ) : ℝ) ((mkRat (10 ^ 20) 1 : ℚ) : ℝ)
              (pyInt (5 : ℚ)).toNat).getD i 0
            * (((mkRat (10 ^ 20) 1 : ℚ) : ℝ) / ((mkRat (10 ^ 18) 1 : ℚ) : ℝ))
              ^ ((1 : ℝ) / ((((pyInt (5 : ℚ)).toNat : ℕ) : ℝ) - 1))) :=
  parse_doping_colon.2 "1e18:1e20:5" (mkRat (10 ^ 18) 1) (mkRat (10 ^ 20) 1) 5
    (by decide) (by decide) (by decide) (by decide)

/-- C6 counterexample: for `n = 1` the single returned point is `lo`, so
the result of `parse_temperatures "100:300:1"` is not "from lo to hi
inclusive" — `hi = 300` is not among the points. -/
theorem parse_temperatures_n1_counterexample :
    parse_temperatures "100:300:1" = .ok [(100 : ℝ)]
    ∧ (300 : ℝ) ∉ ([(100 : ℝ)] : List ℝ) := by
  constructor
  · have h1 : parse_temperatures "100:300:1"
        = .ok (linspace ((100 : ℚ) : ℝ) ((300 : ℚ) : ℝ) 1) := by rfl
    rw [h1]
    norm_num [linspace, List.range_succ]
  · norm_num

/-- C6 (amended): on a colon string `lo:hi:n` with 3 float parts and
`n ≥ 0`, `parse_temperatures` returns `np.linspace(lo, hi, n)`: `n`
points, the first is `lo` (when `n ≥ 1`), the last is `hi` (when
`n ≥ 2`), consecutive points differ by the constant step `(hi-lo)/(n-1)`;
in particular `"100:300:3"` gives `[100, 200, 300]`.  A string without a
colon parses as a comma-separated float list, and any parse failure
raises the temperature format error (whose message carries the stripped
string). -/
theorem parse_temperatures_linear :
    (∀ (s : String) (lo hi nq : ℚ),
      strContains (pyStrip s) ":" = true →
      (pySplit (pyStrip s) ':').mapM parseFloat = some [lo, hi, nq] →
      0 ≤ pyInt nq →
      parse_temperatures s = .ok (linspace (lo : ℝ) (hi : ℝ) (pyInt nq).toNat)
      ∧ (linspace (lo : ℝ) (hi : ℝ) (pyInt nq).toNat).length = (pyInt nq).toNat
      ∧ (1 ≤ (pyInt nq).toNat →
          (linspace (lo : ℝ) (hi : ℝ) (pyInt nq).toNat).getD 0 0 = (lo : ℝ))
      ∧ (2 ≤ (pyInt nq).toNat →
          (linspace (lo : ℝ) (hi : ℝ) (pyInt nq).toNat).getD ((pyInt nq).toNat - 1) 0
            = (hi : ℝ))
      ∧ (∀ i : ℕ, i + 1 < (pyInt nq).toNat →
          (linspace (lo : ℝ) (hi : ℝ) (pyInt nq).toNat).getD (i + 1) 0
            = (linspace (lo : ℝ) (hi : ℝ) (pyInt nq).toNat).getD i 0
              + ((hi : ℝ) - (lo : ℝ)) / ((((pyInt nq).toNat : ℕ) : ℝ) - 1)))
    ∧ parse_temperatures "100:300:3" = .ok [(100 : ℝ), 200, 300]
    ∧ (∀ (s : String) (parts : List ℚ),
      strContains (pyStrip s) ":" = false →
      (pySplit (pyStrip s) ',').mapM parseFloat = some parts →
      parse_temperatures s = .ok (parts.map (fun q => ((q : ℚ) : ℝ))))
    ∧ (∀ s e, parse_temperatures s = .error e → e = temperatureMsg (pyStrip s)) := by
  refine ⟨fun s lo hi nq hc hm hn => ?_, ?_, fun s parts hc hm => ?_, fun s e h => ?_⟩
  · refine ⟨?_, length_linspace _ _ _,
      fun h1 => linspace_head h1,
      fun h2 => linspace_last h2,
      fun i hi2 => linspace_step hi2⟩
    simp only [parse_temperatures, temperatures_core, hc, if_true, hm]
    simp only [List.length_cons, List.length_nil, if_true, List.getD_cons_zero,
      List.getD_cons_succ]
    rw [if_neg (not_lt.mpr hn)]
  · have h1 : parse_temperatures "100:300:3"
        = .ok (linspace ((100 : ℚ) : ℝ) ((300 : ℚ) : ℝ) 3) := by rfl
    rw [h1]
    norm_num [linspace, List.range_succ]
  · simp only [parse_temperatures, temperatures_core, hc, Bool.false_eq_true, if_false, hm]
    rfl
  · simp only [parse_temperatures] at h
    split at h
    · exact absurd h (by simp)
    · exact (Except.error.inj h).symm

/-- C6 witness: the hypotheses of the colon case hold at `"100:300:3"`,
and the comma case at `"250,300"`. -/
theorem parse_temperatures_linear_witness :
    (parse_temperatures "100:300:3"
      = .ok (linspace ((100 : ℚ) : ℝ) ((300 : ℚ) : ℝ) (pyInt (3 : ℚ)).toNat)
    ∧ (linspace ((100 : ℚ) : ℝ) ((300 : ℚ) : ℝ) (pyInt (3 : ℚ)).toNat).length
        = (pyInt (3 : ℚ)).toNat
    ∧ (1 ≤ (pyInt (3 : ℚ)).toNat →
        (linspace ((100 : ℚ) : ℝ) ((300 : ℚ) : ℝ) (pyInt (3 : ℚ)).toNat).getD 0 0
          = ((100 : ℚ) : ℝ))
    ∧ (2 ≤ (pyInt (3 : ℚ)).toNat →
        (linspace ((100 : ℚ) : ℝ) ((300 : ℚ) : ℝ) (pyInt (3 : ℚ)).toNat).getD
            ((pyInt (3 : ℚ)).toNat - 1) 0 = ((300 : ℚ) : ℝ))
    ∧ (∀ i : ℕ, i + 1 < (pyInt (3 : ℚ)).toNat →
        (linspace ((100 : ℚ) : ℝ) ((300 : ℚ) : ℝ) (pyInt (3 : ℚ)).toNat).getD (i + 1) 0
          = (linspace ((100 : ℚ) : ℝ) ((300 : ℚ) : ℝ) (pyInt (3 : ℚ)).toNat).getD i 0
            + (((300 : ℚ) : ℝ) - ((100 : ℚ) : ℝ))
              / ((((pyInt (3 : ℚ)).toNat : ℕ) : ℝ) - 1)))
    ∧ parse_temperatures "250,300"
        = .ok (([(250 : ℚ), 300] : List ℚ).map (fun q => ((q : ℚ) : ℝ))) :=
  ⟨parse_temperatures_linear.1 "100:300:3" 100 300 3 (by decide) (by decide) (by decide),
   parse_temperatures_linear.2.2.1 "250,300" [250, 300] (by decide) (by decide)⟩

/-- C3 counterexample: a user mapping whose key set is a subset of the
schema (`{"doping": "abc"}`) does not make `validate_settings` return a
mapping at all — the doping grammar fails during normalisation and the
call raises the doping format error, not a settings mapping and not
`UnrecognisedSetting`. -/
theorem validate_settings_parse_error_counterexample :
    keysOf [("doping", SVal.str "abc")] = ["doping"]
    ∧ "doping" ∈ keysOf defaults
    ∧ validate_settings [("doping", .str "abc")]
        = .error "ERROR: Unrecognised doping format: abc" :=
  ⟨by rfl, by decide, by rfl⟩

/-- C3 (amended): whenever `validate_settings` returns a mapping, its key
set is exactly the default schema's key set; and whenever normalisation of
the merged settings succeeds and the user mapping contains a key outside
the schema, the call fails with the `Unrecognised setting:` error naming a
key outside the schema.  (When normalisation itself fails — a bad grammar
string or tensor shape — that earlier error is raised instead.) -/
theorem validate_settings_keyset :
    (∀ u s, validate_settings u = .ok s →
      ∀ k, k ∈ keysOf s ↔ k ∈ keysOf defaults)
    ∧ (∀ u t, normalize_settings (dictUpdate defaults u) = .ok t →
      ∀ k0, k0 ∈ keysOf u → k0 ∉ keysOf defaults →
      ∃ k2, validate_settings u = .error ("Unrecognised setting: " ++ k2)
        ∧ k2 ∉ keysOf defaults) := by
  constructor
  · intro u s h
    simp only [validate_settings] at h
    obtain ⟨t, hn, h2⟩ := except_bind_ok h
    cases hf : t.find? (fun kv => !(defaults.any (fun d => d.1 == kv.1))) with
    | some kv =>
      rw [hf] at h2
      exact absurd h2 (by simp)
    | none =>
      rw [hf] at h2
      simp only [pure, Except.pure, Except.ok.injEq] at h2
      subst h2
      have hkeys := normalize_settings_keys hn
      have hnone := List.find?_eq_none.mp hf
      intro k
      constructor
      · intro hk
        obtain ⟨kv, hkv, hfst⟩ := List.mem_map.mp hk
        have hb := hnone kv hkv
        have hT : defaults.any (fun d => d.1 == kv.1) = true := by
          rcases Bool.eq_false_or_eq_true (defaults.any (fun d => d.1 == kv.1)) with hT | hF
          · exact hT
          · exact absurd (by rw [hF]; rfl) hb
        exact hfst ▸ anyKey_iff.mp hT
      · intro hk
        rw [hkeys]
        exact mem_keysOf_dictUpdate.mpr (Or.inl hk)
  · intro u t hn k0 hk0u hk0d
    have hkeys := normalize_settings_keys hn
    have hkt : k0 ∈ keysOf t := by
      rw [hkeys]
      exact mem_keysOf_dictUpdate.mpr (Or.inr hk0u)
    obtain ⟨kv0, hkv0, hfst⟩ := List.mem_map.mp hkt
    have hbad : (!(defaults.any (fun d => d.1 == kv0.1))) = true := by
      rw [Bool.not_eq_true']
      rcases Bool.eq_false_or_eq_true (defaults.any (fun d => d.1 == kv0.1)) with hT | hF
      · exact absurd (anyKey_iff.mp hT) (hfst ▸ hk0d)
      · exact hF
    have hsome : (t.find? (fun kv => !(defaults.any (fun d => d.1 == kv.1)))).isSome :=
      List.find?_isSome.mpr ⟨kv0, hkv0, hbad⟩
    obtain ⟨kv2, hf⟩ := Option.isSome_iff_exists.mp hsome
    have hp := List.find?_some hf
    refine ⟨kv2.1, ?_, ?_⟩
    · simp only [validate_settings, hn, Bind.bind, Except.bind]
      rw [hf]
    · intro hmem
      have hT := anyKey_iff.mpr hmem
      rw [Bool.not_eq_true'] at hp
      exact absurd hT (by rw [hp]; exact Bool.false_ne_true)

/-- The mapping `validate_settings` returns for empty user settings: the
defaults with `doping` and `temperatures` coerced to arrays. -/
noncomputable def normalizedDefaults : Settings :=
  [("doping", .arr ⟨[1], [0]⟩),
   ("temperatures", .arr ⟨[1], [300]⟩),
   ("deformation_potential", .noneV),
   ("static_dielectric", .noneV),
   ("high_frequency_dielectric", .noneV),
   ("elastic_constant", .noneV),
   ("scattering_type", .str "auto"),
   ("nworkers", .num (-1))]

/-- C3 witness: the ok case at empty user settings, and the error case at
`{"bogus": 1}` (which normalises fine and is then rejected). -/
theorem validate_settings_keyset_witness :
    (∀ k, k ∈ keysOf normalizedDefaults ↔ k ∈ keysOf defaults)
    ∧ (∃ k2, validate_settings [("bogus", .num 1)]
        = .error ("Unrecognised setting: " ++ k2) ∧ k2 ∉ keysOf defaults) :=
  ⟨validate_settings_keyset.1 [] normalizedDefaults (by rfl),
   validate_settings_keyset.2 [("bogus", .num 1)]
     (normalizedDefaults ++ [("bogus", .num 1)]) (by rfl)
     "bogus" (by decide) (by decide)⟩

end Amset
